import Mathlib

/-!
Verification of the HTTP server in `src/server.c` (William-stack-idk/http-from-scratch).

Strings that flow through the C code are modelled as lists of byte values
(`List Nat`); a C string is the NUL-free byte list before its terminator.
Machine-level failure (writing through a NULL pointer) is modelled explicitly
as a `fault` outcome. The file system (libc `fopen`/`fread`, reached through
`ReadFile`) is a parameter `FS` mapping a file name to its contents
(`none` = open or read failure).
-/

/-- Byte strings: a C string is the list of its bytes before the NUL terminator. -/
abbrev Bytes := List Nat

/-- Bytes of a Lean string literal (ASCII code points). -/
def strBytes (s : String) : Bytes := s.toList.map Char.toNat

/-- ASCII decimal digit test, as used by `sscanf`/`atoi`/`strtoul` digit scanning. -/
def isDigitB (b : Nat) : Bool := 48 ≤ b && b ≤ 57

/-- C `isspace` byte set (space and the five control whitespace characters),
the whitespace skipped by `sscanf` conversions and `atoi`. -/
def isSpaceB (b : Nat) : Bool := b == 32 || (9 ≤ b && b ≤ 13)

/-- Numeric value of a big-endian ASCII digit string, the accumulation performed
by `strtoul`/`sscanf %zu`/`atoi` over the scanned digits. -/
def bytesToNat (bs : Bytes) : Nat := bs.foldl (fun acc b => 10 * acc + (b - 48)) 0

/-- Decimal rendering of a nonnegative value, digit by digit (`fuel` bounds the
recursion; `natToBytes` supplies enough). Mirrors `snprintf` `%d`/`%zu` output. -/
def natToBytesAux : Nat → Nat → Bytes
  | 0, _ => []
  | fuel + 1, n =>
    if n = 0 then [] else natToBytesAux fuel (n / 10) ++ [48 + n % 10]

/-- Decimal rendering of a `Nat`, as printed by `snprintf` with `%d`/`%zu`. -/
def natToBytes (n : Nat) : Bytes := if n = 0 then [48] else natToBytesAux n n

/-- The suffix of `s` strictly after the first occurrence of `pat` (C `strstr`
followed by skipping the pattern); `none` when `pat` does not occur in `s`. -/
def afterFirst (pat : Bytes) : Bytes → Option Bytes
  | [] => if pat.isPrefixOf ([] : Bytes) then some [] else none
  | a :: s =>
    if pat.isPrefixOf (a :: s) then some ((a :: s).drop pat.length)
    else afterFirst pat s

/-- C `strncmp(a, b, n) == 0` on C strings: the comparison stops at a differing
byte or at a NUL terminator, and compares at most `n` bytes.  Appending the
terminator and truncating to `n` captures exactly that equality. -/
def strncmpEq (a b : Bytes) (n : Nat) : Bool := (a ++ [0]).take n == (b ++ [0]).take n

/-- `MAX_METHOD_SIZE` (`server.c` line 86): the `method` array holds 10 bytes,
so `strncpy(…, sizeof(...) - 1)` stores at most 9 bytes of the method token. -/
def MAX_METHOD_SIZE : Nat := 10

/-- `MAX_PATH_SIZE` (`server.c` line 87): the `path` array holds 100 bytes,
so at most 99 bytes of the path token are stored. -/
def MAX_PATH_SIZE : Nat := 100

/-- `HttpRequest` (`server.c` lines 97–102): method, path, optional body
pointer and declared body size. A `none` body models the NULL pointer. -/
structure HttpRequest where
  method : Bytes
  path : Bytes
  body : Option Bytes
  body_size : Nat
  deriving DecidableEq, Repr

/-- `HttpResponse` (`server.c` lines 110–115): status code, status message,
content length and content buffer. -/
structure HttpResponse where
  status_code : Nat
  status_message : Bytes
  content_length : Nat
  content : Bytes
  deriving DecidableEq, Repr

/-- `RouteMapping` (`server.c` lines 124–128): URL path and target file path.
The `callback` member is always NULL and never invoked, so it is omitted. -/
structure RouteMapping where
  path : Bytes
  link : Bytes
  deriving DecidableEq, Repr

/-- `getRouteMappings` (`server.c` lines 138–142): the static route table. -/
def getRouteMappings : List RouteMapping :=
  [⟨strBytes "/", strBytes "./public_html/index.html"⟩,
   ⟨strBytes "/test", strBytes "./public_html/test.html"⟩]

/-- The file-system collaborator: file name ↦ contents, `none` meaning
`fopen`/`fread` failure (missing or unreadable file). -/
def FS := Bytes → Option Bytes

/-- `ReadFile` (`server.c` lines 44–83): loads a whole file, returning its
contents; the size it reports through `*size` is the byte length of the
contents. Returns `none` (NULL) on open/read failure, leaving `*size` unset. -/
def ReadFile (fs : FS) (filename : Bytes) : Option Bytes := fs filename

/-- The first two space-delimited tokens of the request line, exactly as the
two `strtok(…, " ")` calls in `parseHttpRequest` (lines 183–184) produce them:
leading spaces skipped, a token is a maximal run of non-space bytes; `none`
when either token is missing (then `method && path` is false in the C code). -/
def extractTokens (s : Bytes) : Option (Bytes × Bytes) :=
  let s1 := s.dropWhile (· == 32)
  let m := s1.takeWhile (· != 32)
  if m = [] then none
  else
    let rest := (s1.dropWhile (· != 32)).dropWhile (· == 32)
    let p := rest.takeWhile (· != 32)
    if p = [] then none else some (m, p)

/-- `sscanf(start, "Content-Length: %zu", &http->body_size)` where `start` is
the first occurrence of `"Content-Length:"` in the request (line 190–192):
after the literal, whitespace is skipped and a decimal digit run is converted;
if no digits follow, no conversion happens and `body_size` keeps its
`memset` value 0. Returns `none` when the header substring is absent. -/
def scanContentLength (s : Bytes) : Option Nat :=
  (afterFirst (strBytes "Content-Length:") s).map (fun r =>
    let ds := (r.dropWhile isSpaceB).takeWhile isDigitB
    if ds = [] then 0 else bytesToNat ds)

/-- Outcome of `parseHttpRequest`: NULL (`noRequest`), a populated struct
(`ok`), or undefined behaviour (`fault`) — the function writes the body
through `http->body`, which is still the NULL pointer from `memset`, with a
bound computed from `sizeof(http->body)` (lines 197–200), so reaching the body
copy dereferences NULL. -/
inductive ParseResult where
  | noRequest
  | fault
  | ok (r : HttpRequest)
  deriving DecidableEq, Repr

/-- `parseHttpRequest` (`server.c` lines 156–207). `input = none` models a NULL
`request` argument; otherwise `input = some s` is the received C string.
Allocation failures (`malloc`/`strdup`, environmental) are not modelled.
When both `"Content-Length:"` and the blank-line separator `"\r\n\r\n"` are
found, the C code executes `strncpy(http->body, start, copy_size)` and
`http->body[copy_size] = '\0'` with `http->body == NULL`: a `fault`. -/
def parseHttpRequest (input : Option Bytes) : ParseResult :=
  match input with
  | none => .noRequest
  | some s =>
    match extractTokens s with
    | none => .ok ⟨[], [], none, 0⟩
    | some (m, p) =>
      match scanContentLength s with
      | none => .ok ⟨m.take (MAX_METHOD_SIZE - 1), p.take (MAX_PATH_SIZE - 1), none, 0⟩
      | some n =>
        match afterFirst (strBytes "\r\n\r\n") s with
        | none => .ok ⟨m.take (MAX_METHOD_SIZE - 1), p.take (MAX_PATH_SIZE - 1), none, n⟩
        | some _ => .fault

/-- What `%s` prints of a byte buffer: the bytes before the first NUL. -/
def cstr (s : Bytes) : Bytes := s.takeWhile (· != 0)

/-- `HttpResponseToString` (`server.c` lines 222–249): the single `snprintf`
format `"HTTP/1.1 %d %s\r\nContent-Type: text/html;charset=UTF-8\r\n`
`Content-Length: %zu\r\n\r\n%s"`. Its `%s` conversions stop at the first NUL
byte of `status_message` and of `content`. The returned `*size` is the byte
length of this list. Allocation failure (NULL return) is environmental and not
modelled. -/
def HttpResponseToString (r : HttpResponse) : Bytes :=
  strBytes "HTTP/1.1 " ++ natToBytes r.status_code ++ strBytes " " ++ cstr r.status_message ++
    strBytes "\r\nContent-Type: text/html;charset=UTF-8\r\nContent-Length: " ++
    natToBytes r.content_length ++ strBytes "\r\n\r\n" ++ cstr r.content

/-- The route-table scan and response construction of `handleGetRequest`
(`server.c` lines 262–287), as a function of the request path: the response
starts as 404/"Not Found" with empty content and length 0; the table is
scanned front to back with `strncmp(path, route, MAX_PATH_SIZE)`; on the first
match the status becomes 200/"OK" and `ReadFile` is attempted — success stores
the contents and their size, failure turns the status into 500/"Internal
Server Error" (content and length keep their initial empty values). -/
def routeDispatch (fs : FS) (path : Bytes) : HttpResponse :=
  match getRouteMappings.find? (fun rt => strncmpEq path rt.path MAX_PATH_SIZE) with
  | none => ⟨404, strBytes "Not Found", 0, []⟩
  | some rt =>
    match ReadFile fs rt.link with
    | some content => ⟨200, strBytes "OK", content.length, content⟩
    | none => ⟨500, strBytes "Internal Server Error", 0, []⟩

/-- `handleGetRequest` (`server.c` lines 262–300): the response it serializes
and sends for a parsed request; only the request's `path` is consulted. -/
def handleGetRequest (fs : FS) (request : HttpRequest) : HttpResponse :=
  routeDispatch fs request.path

/-- `handleHttpRequest` (`server.c` lines 311–318): dispatches to
`handleGetRequest` when `strncmp(request->method, "GET", 3) == 0`; for any
other method it only logs "Unsupported HTTP method" and produces no response
(`none`). -/
def handleHttpRequest (fs : FS) (request : HttpRequest) : Option HttpResponse :=
  if strncmpEq request.method (strBytes "GET") 3 then some (handleGetRequest fs request)
  else none

/-- libc `atoi` as called on `argv[2]` (`server.c` line 415): skip leading
whitespace, an optional sign, then the value of the leading digit run
(0 when there are no digits). -/
def atoi (s : Bytes) : Int :=
  let s1 := s.dropWhile isSpaceB
  match s1 with
  | 45 :: t => -(bytesToNat (t.takeWhile isDigitB) : Int)
  | 43 :: t => (bytesToNat (t.takeWhile isDigitB) : Int)
  | _ => (bytesToNat (s1.takeWhile isDigitB) : Int)

/-- Modelled from the spec: libc `inet_pton(AF_INET, …)` ("the IP address
fails dotted-quad parsing", spec §6) is not part of `src/`. A dotted quad is
four dot-separated components, each a run of one to three decimal digits with
value at most 255; the result is the 32-bit address value. -/
def inet_pton (s : Bytes) : Option Nat :=
  match (s.splitOn 46).mapM (fun c =>
      if c ≠ [] ∧ c.length ≤ 3 ∧ c.all isDigitB = true ∧ bytesToNat c ≤ 255
      then some (bytesToNat c) else none) with
  | some [a, b, c, d] => some (((a * 256 + b) * 256 + c) * 256 + d)
  | _ => none

/-- Outcome of `main`'s argument validation (`server.c` lines 400–428):
either the process returns `EXIT_FAILURE` (exit code 1) during validation, or
validation passes and `startHttpServer` is entered with the parsed address and
port (socket failures past that point are environmental and not modelled). -/
inductive MainOutcome where
  | exitFailure
  | runServer (addr : Nat) (port : Nat)
  deriving DecidableEq, Repr

/-- `main` (`server.c` lines 400–421) up to the call of `startHttpServer`:
fail when the argument count is not 2, when `inet_pton` rejects the address,
or when the port — `atoi(argv[2])` truncated by the `unsigned short port`
conversion, i.e. reduced modulo 65536 — is 0 (`port <= 0` on an unsigned
value) or exceeds 65534. -/
def mainCheck (args : List Bytes) : MainOutcome :=
  match args with
  | [ip, portStr] =>
    match inet_pton ip with
    | none => .exitFailure
    | some addr =>
      let port : Nat := ((atoi portStr) % 65536).toNat
      if port = 0 ∨ 65534 < port then .exitFailure
      else .runServer addr port
  | _ => .exitFailure

/-- Re-parsing of the `Content-Length` field from serialized output: the
digit run immediately after the first occurrence of `"Content-Length: "`. -/
def parseCLField (s : Bytes) : Option Nat :=
  (afterFirst (strBytes "Content-Length: ") s).map (fun r => bytesToNat (r.takeWhile isDigitB))

/-- The portion of serialized output following the first blank-line separator
`"\r\n\r\n"`. -/
def bodyPortion (s : Bytes) : Option Bytes := afterFirst (strBytes "\r\n\r\n") s

/-- `zs` disagrees with `pat` at some index below both lengths; such a suffix
can never start an occurrence of `pat`, whatever follows it. -/
def hasEarlyMismatch (pat zs : Bytes) : Bool :=
  (List.range (min zs.length pat.length)).any (fun i => zs.getD i 0 != pat.getD i 0)

/-- Every nonempty suffix of `xs` disagrees early with `pat` (decidable on
concrete `xs`): then no occurrence of `pat` can start inside `xs`. -/
def noStartIn (pat xs : Bytes) : Bool :=
  xs.tails.all (fun zs => zs.isEmpty || hasEarlyMismatch pat zs)

theorem not_isPrefixOf_of_hasEarlyMismatch {pat zs : Bytes}
    (h : hasEarlyMismatch pat zs = true) (rest : Bytes) :
    pat.isPrefixOf (zs ++ rest) = false := by
  rw [hasEarlyMismatch, List.any_eq_true] at h
  obtain ⟨i, hi, hne⟩ := h
  rw [List.mem_range, lt_min_iff] at hi
  by_contra hcontra
  rw [Bool.not_eq_false, List.isPrefixOf_iff_prefix] at hcontra
  obtain ⟨t, ht⟩ := hcontra
  have h1 : (pat ++ t).getD i 0 = pat.getD i 0 := List.getD_append _ _ _ _ hi.2
  have h2 : (zs ++ rest).getD i 0 = zs.getD i 0 := List.getD_append _ _ _ _ hi.1
  rw [ht, h2] at h1
  rw [bne_iff_ne] at hne
  exact hne h1

theorem afterFirst_append_of_noStartIn (pat xs rest : Bytes)
    (h : noStartIn pat xs = true) : afterFirst pat (xs ++ rest) = afterFirst pat rest := by
  induction xs with
  | nil => rfl
  | cons a t ih =>
    rw [noStartIn, List.tails_cons, List.all_cons, Bool.and_eq_true] at h
    obtain ⟨h1, h2⟩ := h
    have hm : hasEarlyMismatch pat (a :: t) = true := by simpa using h1
    have hfalse : pat.isPrefixOf (a :: (t ++ rest)) = false := by
      have := not_isPrefixOf_of_hasEarlyMismatch hm rest
      rwa [List.cons_append] at this
    rw [List.cons_append, afterFirst, hfalse]
    simp only [Bool.false_eq_true, if_false]
    exact ih h2

theorem afterFirst_self (pat rest : Bytes) : afterFirst pat (pat ++ rest) = some rest := by
  match pat, rest with
  | [], [] => rfl
  | [], a :: r => simp [afterFirst]
  | p :: ps, rest =>
    have htrue : (p :: ps).isPrefixOf ((p :: ps) ++ rest) = true :=
      List.isPrefixOf_iff_prefix.mpr (List.prefix_append _ _)
    rw [List.cons_append] at htrue ⊢
    rw [afterFirst, htrue]
    simp only [if_true]
    rw [← List.cons_append, List.drop_left]

theorem afterFirst_digits (c : Nat) (cs : Bytes) (hc : isDigitB c = false)
    {D : Bytes} (hD : ∀ b ∈ D, isDigitB b = true) (rest : Bytes) :
    afterFirst (c :: cs) (D ++ rest) = afterFirst (c :: cs) rest := by
  induction D with
  | nil => rfl
  | cons d t ih =>
    have hd : isDigitB d = true := hD d (by simp)
    have hne : (c == d) = false := by
      rw [beq_eq_false_iff_ne]
      rintro rfl
      rw [hc] at hd
      exact Bool.false_ne_true hd
    rw [List.cons_append, afterFirst]
    rw [show (c :: cs).isPrefixOf (d :: (t ++ rest)) = false by
      simp [List.isPrefixOf, hne]]
    simp only [Bool.false_eq_true, if_false]
    exact ih (fun b hb => hD b (by simp [hb]))

theorem takeWhile_digits_append (c : Nat) {D : Bytes} (hD : ∀ b ∈ D, isDigitB b = true)
    (hc : isDigitB c = false) (t : Bytes) :
    (D ++ c :: t).takeWhile isDigitB = D := by
  induction D with
  | nil => simp [List.takeWhile_cons, hc]
  | cons d ds ih =>
    have hd : isDigitB d = true := hD d (by simp)
    rw [List.cons_append, List.takeWhile_cons, hd]
    simp only [if_true]
    rw [ih (fun b hb => hD b (by simp [hb]))]

theorem natToBytesAux_digits :
    ∀ fuel n, ∀ b ∈ natToBytesAux fuel n, isDigitB b = true := by
  intro fuel
  induction fuel with
  | zero => intro n b hb; simp [natToBytesAux] at hb
  | succ f ih =>
    intro n b hb
    match n with
    | 0 => simp [natToBytesAux] at hb
    | m + 1 =>
      rw [natToBytesAux, if_neg (by omega), List.mem_append] at hb
      rcases hb with h | h
      · exact ih _ _ h
      · have hm : (m + 1) % 10 < 10 := Nat.mod_lt _ (by norm_num)
        simp only [List.mem_singleton] at h
        subst h
        simp only [isDigitB, Bool.and_eq_true, decide_eq_true_eq]
        omega

theorem natToBytes_digits (n : Nat) : ∀ b ∈ natToBytes n, isDigitB b = true := by
  rw [natToBytes]
  split
  · intro b hb; simp only [List.mem_singleton] at hb; subst hb; decide
  · exact natToBytesAux_digits n n

theorem bytesToNat_append_digit (xs : Bytes) (d : Nat) :
    bytesToNat (xs ++ [d]) = 10 * bytesToNat xs + (d - 48) := by
  rw [bytesToNat, List.foldl_append]
  rfl

theorem bytesToNat_natToBytesAux :
    ∀ fuel n, n ≤ fuel → bytesToNat (natToBytesAux fuel n) = n := by
  intro fuel
  induction fuel with
  | zero => intro n h; rw [Nat.le_zero.mp h]; rfl
  | succ f ih =>
    intro n h
    match n with
    | 0 => rfl
    | m + 1 =>
      rw [natToBytesAux, if_neg (by omega), bytesToNat_append_digit,
        ih ((m + 1) / 10) (by omega)]
      omega

theorem bytesToNat_natToBytes (n : Nat) : bytesToNat (natToBytes n) = n := by
  rw [natToBytes]
  split
  · subst n; rfl  
  · exact bytesToNat_natToBytesAux n n le_rfl

theorem cstr_eq_self {s : Bytes} (h : ∀ b ∈ s, b ≠ 0) : cstr s = s := by
  induction s with
  | nil => rfl
  | cons a t ih =>
    have ha : (a != 0) = true := bne_iff_ne.mpr (h a (by simp))
    rw [cstr, List.takeWhile_cons, ha]
    simp only [if_true]
    have := ih (fun b hb => h b (by simp [hb]))
    rw [cstr] at this
    rw [this]

theorem strncmpEq_iff_eq {p e : Bytes} (he : e.length + 1 < 100) :
    strncmpEq p e 100 = true ↔ p = e := by
  constructor
  · intro h
    rw [strncmpEq, beq_iff_eq] at h
    rcases le_or_lt (p.length + 1) 100 with hp | hp
    · rw [List.take_of_length_le (by simp; omega), List.take_of_length_le (by simp; omega)] at h
      have := congrArg List.dropLast h
      rwa [List.dropLast_concat, List.dropLast_concat] at this
    · have h1 : ((p ++ [0]).take 100).length = 100 := by
        rw [List.length_take]
        simp only [List.length_append, List.length_cons, List.length_nil]
        omega
      have h2 : ((e ++ [0]).take 100).length = e.length + 1 := by
        rw [List.take_of_length_le (by simp; omega)]
        simp
      rw [h, h2] at h1
      omega
  · rintro rfl
    rw [strncmpEq]
    exact beq_self_eq_true _

theorem strncmpEq_GET (m : Bytes) :
    strncmpEq m (strBytes "GET") 3 = (strBytes "GET").isPrefixOf m := by
  have hGET : strBytes "GET" = [71, 69, 84] := by decide
  rw [hGET]
  match m with
  | [] => decide
  | [a] =>
    simp only [strncmpEq, List.cons_append, List.nil_append, List.take, List.isPrefixOf]
    rw [show ([a, 0] == [71, 69, 84]) = false by
      rw [beq_eq_false_iff_ne]; intro hcon; exact absurd (congrArg List.length hcon) (by simp)]
    simp
  | [a, b] =>
    simp only [strncmpEq, List.cons_append, List.nil_append, List.take, List.isPrefixOf]
    rw [show ([a, b, 0] == [71, 69, 84]) = false by
      rw [beq_eq_false_iff_ne]; intro hcon
      have := List.getElem_of_eq hcon (by simp : 2 < [a, b, 0].length)
      simp at this]
    simp
  | a :: b :: c :: t =>
    simp only [strncmpEq, List.cons_append, List.take, List.take_zero, List.isPrefixOf,
      List.isPrefixOf_nil_left]
    rw [show ([a, b, c] == [71, 69, 84]) = ((71 == a && (69 == b && 84 == c)))  by
      simp [List.instBEq, List.beq, Bool.and_assoc, Bool.and_comm, eq_comm, beq_eq_decide]]
    simp [Bool.and_assoc]

theorem find_route_root :
    getRouteMappings.find? (fun rt => strncmpEq (strBytes "/") rt.path MAX_PATH_SIZE) =
      some ⟨strBytes "/", strBytes "./public_html/index.html"⟩ := by decide

theorem find_route_test :
    getRouteMappings.find? (fun rt => strncmpEq (strBytes "/test") rt.path MAX_PATH_SIZE) =
      some ⟨strBytes "/test", strBytes "./public_html/test.html"⟩ := by decide

theorem mem_routes_elim {rt : RouteMapping} (hmem : rt ∈ getRouteMappings) :
    rt = ⟨strBytes "/", strBytes "./public_html/index.html"⟩ ∨
      rt = ⟨strBytes "/test", strBytes "./public_html/test.html"⟩ := by
  simp only [getRouteMappings, List.mem_cons, List.not_mem_nil, or_false] at hmem
  exact hmem

/-- C1: a request whose path exactly matches a route-table entry whose file
loads successfully is answered with status 200, status message "OK", the
file's bytes as body, and `content_length` equal to the file's size. -/
theorem handleGetRequest_match_ok (fs : FS) (request : HttpRequest) (rt : RouteMapping)
    (c : Bytes) (hmem : rt ∈ getRouteMappings) (hpath : request.path = rt.path)
    (hfile : ReadFile fs rt.link = some c) :
    handleGetRequest fs request = ⟨200, strBytes "OK", c.length, c⟩ := by
  rcases mem_routes_elim hmem with rfl | rfl
  · rw [handleGetRequest, routeDispatch, hpath]
    dsimp only at hpath hfile ⊢
    rw [find_route_root]
    dsimp only
    rw [hfile]
  · rw [handleGetRequest, routeDispatch, hpath]
    dsimp only at hpath hfile ⊢
    rw [find_route_test]
    dsimp only
    rw [hfile]

/-- Witness for C1 at the concrete route "/" with a two-byte file. -/
theorem handleGetRequest_match_ok_witness :
    handleGetRequest
        (fun n => if n = strBytes "./public_html/index.html" then some [104, 105] else none)
        ⟨strBytes "GET", strBytes "/", none, 0⟩ =
      ⟨200, strBytes "OK", 2, [104, 105]⟩ :=
  handleGetRequest_match_ok
    (fun n => if n = strBytes "./public_html/index.html" then some [104, 105] else none)
    ⟨strBytes "GET", strBytes "/", none, 0⟩
    ⟨strBytes "/", strBytes "./public_html/index.html"⟩ [104, 105]
    (by decide) (by decide) (by decide)

/-- C2: a request whose path matches no route-table entry is answered with
status 404, status message "Not Found", an empty body and `content_length` 0. -/
theorem handleGetRequest_no_match (fs : FS) (request : HttpRequest)
    (hno : ∀ rt ∈ getRouteMappings, request.path ≠ rt.path) :
    handleGetRequest fs request = ⟨404, strBytes "Not Found", 0, []⟩ := by
  rw [handleGetRequest, routeDispatch]
  have hfind : getRouteMappings.find?
      (fun rt => strncmpEq request.path rt.path MAX_PATH_SIZE) = none := by
    rw [List.find?_eq_none]
    intro rt hrt
    have hne := hno rt hrt
    rcases mem_routes_elim hrt with rfl | rfl
    · intro hcon
      exact hne ((strncmpEq_iff_eq (by decide)).mp hcon)
    · intro hcon
      exact hne ((strncmpEq_iff_eq (by decide)).mp hcon)
  rw [hfind]

/-- Witness for C2 at the concrete unrouted path "/nope". -/
theorem handleGetRequest_no_match_witness :
    handleGetRequest (fun _ => none) ⟨strBytes "GET", strBytes "/nope", none, 0⟩ =
      ⟨404, strBytes "Not Found", 0, []⟩ :=
  handleGetRequest_no_match (fun _ => none) ⟨strBytes "GET", strBytes "/nope", none, 0⟩
    (by decide)

/-- C3: a request whose path exactly matches a route-table entry whose file
fails to load is answered with status 500, status message
"Internal Server Error", an empty body and `content_length` 0. -/
theorem handleGetRequest_load_failure (fs : FS) (request : HttpRequest) (rt : RouteMapping)
    (hmem : rt ∈ getRouteMappings) (hpath : request.path = rt.path)
    (hfile : ReadFile fs rt.link = none) :
    handleGetRequest fs request = ⟨500, strBytes "Internal Server Error", 0, []⟩ := by
  rcases mem_routes_elim hmem with rfl | rfl
  · rw [handleGetRequest, routeDispatch, hpath]
    dsimp only at hpath hfile ⊢
    rw [find_route_root]
    dsimp only
    rw [hfile]
  · rw [handleGetRequest, routeDispatch, hpath]
    dsimp only at hpath hfile ⊢
    rw [find_route_test]
    dsimp only
    rw [hfile]

/-- Witness for C3 at the concrete route "/test" over an empty file system. -/
theorem handleGetRequest_load_failure_witness :
    handleGetRequest (fun _ => none) ⟨strBytes "GET", strBytes "/test", none, 0⟩ =
      ⟨500, strBytes "Internal Server Error", 0, []⟩ :=
  handleGetRequest_load_failure (fun _ => none) ⟨strBytes "GET", strBytes "/test", none, 0⟩
    ⟨strBytes "/test", strBytes "./public_html/test.html"⟩
    (by decide) (by decide) (by decide)

theorem parse_eq_of_tokens_noCL {s m p : Bytes} (h1 : extractTokens s = some (m, p))
    (h2 : scanContentLength s = none) :
    parseHttpRequest (some s) = .ok ⟨m.take 9, p.take 99, none, 0⟩ := by
  simp [parseHttpRequest, h1, h2, MAX_METHOD_SIZE, MAX_PATH_SIZE]

theorem parse_eq_of_tokens_CL_noSep {s m p : Bytes} {n : Nat}
    (h1 : extractTokens s = some (m, p)) (h2 : scanContentLength s = some n)
    (h3 : afterFirst (strBytes "\r\n\r\n") s = none) :
    parseHttpRequest (some s) = .ok ⟨m.take 9, p.take 99, none, n⟩ := by
  simp [parseHttpRequest, h1, h2, h3, MAX_METHOD_SIZE, MAX_PATH_SIZE]

theorem parse_fault_of_CL_sep {s m p : Bytes} {n : Nat} {z : Bytes}
    (h1 : extractTokens s = some (m, p)) (h2 : scanContentLength s = some n)
    (h3 : afterFirst (strBytes "\r\n\r\n") s = some z) :
    parseHttpRequest (some s) = .fault := by
  simp [parseHttpRequest, h1, h2, h3]

theorem parse_some_ne_noRequest (s : Bytes) : parseHttpRequest (some s) ≠ .noRequest := by
  cases h1 : extractTokens s with
  | none => simp [parseHttpRequest, h1]
  | some mp =>
    obtain ⟨m, p⟩ := mp
    cases h2 : scanContentLength s with
    | none => rw [parse_eq_of_tokens_noCL h1 h2]; simp
    | some n =>
      cases h3 : afterFirst (strBytes "\r\n\r\n") s with
      | none => rw [parse_eq_of_tokens_CL_noSep h1 h2 h3]; simp
      | some z => rw [parse_fault_of_CL_sep h1 h2 h3]; simp

theorem parse_ok_fields {s m p : Bytes} {r : HttpRequest}
    (h1 : extractTokens s = some (m, p)) (ho : parseHttpRequest (some s) = .ok r) :
    r.method = m.take 9 ∧ r.path = p.take 99 := by
  cases h2 : scanContentLength s with
  | none =>
    rw [parse_eq_of_tokens_noCL h1 h2] at ho
    simp only [ParseResult.ok.injEq] at ho
    subst ho
    exact ⟨rfl, rfl⟩
  | some n =>
    cases h3 : afterFirst (strBytes "\r\n\r\n") s with
    | none =>
      rw [parse_eq_of_tokens_CL_noSep h1 h2 h3] at ho
      simp only [ParseResult.ok.injEq] at ho
      subst ho
      exact ⟨rfl, rfl⟩
    | some z =>
      rw [parse_fault_of_CL_sep h1 h2 h3] at ho
      simp at ho

/-- C4 (counterexample): on the empty received string neither token can be
extracted, yet the parser does not return NULL — it returns a request whose
method and path are empty (the C code skips the `if (method && path)` block
and returns the zeroed struct). -/
theorem parseHttpRequest_empty_not_noRequest :
    extractTokens [] = none ∧
      parseHttpRequest (some []) = .ok ⟨[], [], none, 0⟩ ∧
      parseHttpRequest (some []) ≠ .noRequest := by decide

/-- C4 (amended): the parser returns NULL exactly when its input is absent;
when the two tokens cannot be extracted it instead returns a request with
empty method and path; whenever it does return a request after extracting
tokens, that request's method and path are populated from the tokens
(truncated to 9 and 99 bytes). -/
theorem parseHttpRequest_noRequest_iff (input : Option Bytes) :
    (parseHttpRequest input = .noRequest ↔ input = none) ∧
    (∀ s, input = some s → extractTokens s = none →
      parseHttpRequest input = .ok ⟨[], [], none, 0⟩) ∧
    (∀ s m p r, input = some s → extractTokens s = some (m, p) →
      parseHttpRequest input = .ok r → r.method = m.take 9 ∧ r.path = p.take 99) := by
  refine ⟨⟨?_, ?_⟩, ?_, ?_⟩
  · intro h
    match input with
    | none => rfl
    | some s => exact absurd h (parse_some_ne_noRequest s)
  · rintro rfl
    rfl
  · rintro s rfl h
    simp [parseHttpRequest, h]
  · rintro s m p r rfl h2 h3
    exact parse_ok_fields h2 h3

/-- Witness for C4 at a concrete header-less GET request. -/
theorem parseHttpRequest_noRequest_iff_witness :
    parseHttpRequest (some (strBytes "GET /index.html HTTP/1.1")) ≠ .noRequest ∧
      (⟨strBytes "GET", strBytes "/index.html", none, 0⟩ : HttpRequest).method =
        (strBytes "GET").take 9 ∧
      (⟨strBytes "GET", strBytes "/index.html", none, 0⟩ : HttpRequest).path =
        (strBytes "/index.html").take 99 := by
  refine ⟨?_, ?_⟩
  · intro h
    exact absurd ((parseHttpRequest_noRequest_iff
      (some (strBytes "GET /index.html HTTP/1.1"))).1.mp h) (by decide)
  · exact (parseHttpRequest_noRequest_iff (some (strBytes "GET /index.html HTTP/1.1"))).2.2
      (strBytes "GET /index.html HTTP/1.1") (strBytes "GET") (strBytes "/index.html")
      ⟨strBytes "GET", strBytes "/index.html", none, 0⟩ rfl (by decide) (by decide)

/-- C5 (code defect): on the spec's own example request the declared size 5 is
scanned, but the body copy then writes through the NULL `body` pointer
(`strncpy(http->body, …)` with `http->body == NULL` and a bound computed from
`sizeof(http->body)`): undefined behaviour instead of a stored "hello" body. -/
theorem parseHttpRequest_body_copy_fault :
    scanContentLength (strBytes "GET / HTTP/1.1\r\nContent-Length: 5\r\n\r\nhello") = some 5 ∧
      parseHttpRequest
        (some (strBytes "GET / HTTP/1.1\r\nContent-Length: 5\r\n\r\nhello")) = .fault := by
  decide

/-- C6 (code defect): with a malformed `Content-Length` value the scan leaves
the declared size 0, but since the blank-line separator is present the parser
still executes `http->body[0] = 0` through the NULL `body` pointer: it faults
rather than completing with an empty body. -/
theorem parseHttpRequest_malformed_CL_fault :
    scanContentLength (strBytes "GET / HTTP/1.1\r\nContent-Length: abc\r\n\r\n") = some 0 ∧
      parseHttpRequest
        (some (strBytes "GET / HTTP/1.1\r\nContent-Length: abc\r\n\r\n")) = .fault := by
  decide

/-- C10: on every successful parse the stored method is at most 9 bytes and
the stored path at most 99 bytes (the `strncpy` truncation limits), so two
requests whose path tokens agree on their first 99 bytes store equal paths and
are routed to identical responses by the GET dispatcher. -/
theorem parse_truncation_routing (fs : FS) (s1 s2 m1 p1 m2 p2 : Bytes)
    (r1 r2 : HttpRequest)
    (h1 : extractTokens s1 = some (m1, p1)) (h2 : extractTokens s2 = some (m2, p2))
    (hp : p1.take 99 = p2.take 99)
    (ho1 : parseHttpRequest (some s1) = .ok r1)
    (ho2 : parseHttpRequest (some s2) = .ok r2) :
    r1.method.length ≤ 9 ∧ r1.path.length ≤ 99 ∧ r1.path = r2.path ∧
      handleGetRequest fs r1 = handleGetRequest fs r2 := by
  obtain ⟨hm1, hpa1⟩ := parse_ok_fields h1 ho1
  obtain ⟨hm2, hpa2⟩ := parse_ok_fields h2 ho2
  have hpath : r1.path = r2.path := by rw [hpa1, hpa2, hp]
  refine ⟨?_, ?_, hpath, ?_⟩
  · rw [hm1, List.length_take]
    exact min_le_left _ _
  · rw [hpa1, List.length_take]
    exact min_le_left _ _
  · rw [handleGetRequest, handleGetRequest, hpath]

/-- Witness for C10 at two concrete requests sharing the path token "/abc". -/
theorem parse_truncation_routing_witness :
    (⟨strBytes "GET", strBytes "/abc", none, 0⟩ : HttpRequest).method.length ≤ 9 ∧
      (⟨strBytes "GET", strBytes "/abc", none, 0⟩ : HttpRequest).path.length ≤ 99 ∧
      (⟨strBytes "GET", strBytes "/abc", none, 0⟩ : HttpRequest).path =
        (⟨strBytes "HEAD", strBytes "/abc", none, 0⟩ : HttpRequest).path ∧
      handleGetRequest (fun _ => none) ⟨strBytes "GET", strBytes "/abc", none, 0⟩ =
        handleGetRequest (fun _ => none) ⟨strBytes "HEAD", strBytes "/abc", none, 0⟩ :=
  parse_truncation_routing (fun _ => none)
    (strBytes "GET /abc HTTP/1.1") (strBytes "HEAD /abc x")
    (strBytes "GET") (strBytes "/abc") (strBytes "HEAD") (strBytes "/abc")
    ⟨strBytes "GET", strBytes "/abc", none, 0⟩ ⟨strBytes "HEAD", strBytes "/abc", none, 0⟩
    (by decide) (by decide) (by decide) (by decide) (by decide)

/-- C8 (counterexample): the method "GETX" is not exactly "GET", yet the
dispatcher invokes the GET logic for it (`strncmp(…, "GET", 3)` compares only
the first three bytes). -/
theorem handleHttpRequest_GETX_dispatched :
    (handleHttpRequest (fun _ => none)
        ⟨strBytes "GETX", strBytes "/", none, 0⟩).isSome = true ∧
      strBytes "GETX" ≠ strBytes "GET" := by decide

/-- C8 (amended): the GET dispatch logic is invoked if and only if the first
three bytes of the request's method are "GET" (so e.g. "GETX" is also
dispatched); for every other method no response is produced (`none`). -/
theorem handleHttpRequest_dispatch_iff (fs : FS) (request : HttpRequest) :
    handleHttpRequest fs request =
      if (strBytes "GET").isPrefixOf request.method then some (handleGetRequest fs request)
      else none := by
  rw [handleHttpRequest, strncmpEq_GET]

/-- C9 (counterexample): the port argument "65537" has numeric value 65537,
outside (0, 65534], yet validation passes (the `unsigned short` conversion
truncates `atoi`'s result to 1) and the server is started instead of exiting. -/
theorem mainCheck_port_overflow_passes :
    atoi (strBytes "65537") = 65537 ∧
      mainCheck [strBytes "127.0.0.1", strBytes "65537"] ≠ .exitFailure := by decide

/-- C9 (amended): the process exits with failure status when the argument
count differs from two, when the IP address fails dotted-quad parsing, or when
the port value — `atoi` of the argument reduced modulo 65536 by the
`unsigned short` conversion — lies outside (0, 65534]. -/
theorem mainCheck_failure_conditions :
    (∀ args : List Bytes, args.length ≠ 2 → mainCheck args = .exitFailure) ∧
    (∀ ip portStr : Bytes, inet_pton ip = none →
      mainCheck [ip, portStr] = .exitFailure) ∧
    (∀ ip portStr : Bytes,
      ((atoi portStr % 65536).toNat = 0 ∨ 65534 < (atoi portStr % 65536).toNat) →
      mainCheck [ip, portStr] = .exitFailure) := by
  refine ⟨?_, ?_, ?_⟩
  · intro args h
    match args with
    | [] => rfl
    | [a] => rfl
    | [a, b] => exact absurd rfl h
    | a :: b :: c :: t => rfl
  · intro ip portStr h
    simp [mainCheck, h]
  · intro ip portStr h
    cases hip : inet_pton ip with
    | none => simp [mainCheck, hip]
    | some a =>
      simp only [mainCheck, hip]
      rw [if_pos]
      omega

/-- Witness for C9: each failure condition at a concrete invocation. -/
theorem mainCheck_failure_conditions_witness :
    mainCheck [strBytes "127.0.0.1", strBytes "0"] = .exitFailure ∧
      mainCheck [] = .exitFailure ∧
      mainCheck [strBytes "not-an-ip", strBytes "80"] = .exitFailure :=
  ⟨mainCheck_failure_conditions.2.2 _ _ (by decide),
   mainCheck_failure_conditions.1 [] (by decide),
   mainCheck_failure_conditions.2.1 _ _ (by decide)⟩

theorem serialized_reparse (pre : Bytes)
    (hsep : noStartIn (strBytes "\r\n\r\n") pre = true)
    (hclp : noStartIn (strBytes "Content-Length: ") pre = true)
    (cl : Nat) (content : Bytes) :
    parseCLField
        (pre ++ (strBytes "\r\nContent-Type: text/html;charset=UTF-8\r\nContent-Length: " ++
          (natToBytes cl ++ (strBytes "\r\n\r\n" ++ content)))) = some cl ∧
      bodyPortion
        (pre ++ (strBytes "\r\nContent-Type: text/html;charset=UTF-8\r\nContent-Length: " ++
          (natToBytes cl ++ (strBytes "\r\n\r\n" ++ content)))) = some content := by
  constructor
  · rw [parseCLField, afterFirst_append_of_noStartIn _ pre _ hclp]
    rw [show strBytes "\r\nContent-Type: text/html;charset=UTF-8\r\nContent-Length: " =
      strBytes "\r\nContent-Type: text/html;charset=UTF-8\r\n" ++ strBytes "Content-Length: "
      from by decide]
    rw [List.append_assoc]
    rw [afterFirst_append_of_noStartIn (strBytes "Content-Length: ")
      (strBytes "\r\nContent-Type: text/html;charset=UTF-8\r\n") _ (by decide)]
    rw [afterFirst_self]
    simp only [Option.map_some']
    rw [show strBytes "\r\n\r\n" = 13 :: strBytes "\n\r\n" from by decide]
    rw [List.cons_append]
    rw [takeWhile_digits_append 13 (natToBytes_digits cl) (by decide) _]
    rw [bytesToNat_natToBytes]
  · rw [bodyPortion, afterFirst_append_of_noStartIn _ pre _ hsep]
    rw [afterFirst_append_of_noStartIn (strBytes "\r\n\r\n")
      (strBytes "\r\nContent-Type: text/html;charset=UTF-8\r\nContent-Length: ") _ (by decide)]
    rw [show strBytes "\r\n\r\n" = 13 :: strBytes "\n\r\n" from by decide]
    rw [afterFirst_digits 13 (strBytes "\n\r\n") (by decide) (natToBytes_digits cl) _]
    exact afterFirst_self _ _

theorem roundTrip_case (r : HttpResponse) (pre : Bytes)
    (hser : HttpResponseToString r =
      pre ++ (strBytes "\r\nContent-Type: text/html;charset=UTF-8\r\nContent-Length: " ++
        (natToBytes r.content_length ++ (strBytes "\r\n\r\n" ++ r.content))))
    (hsep : noStartIn (strBytes "\r\n\r\n") pre = true)
    (hclp : noStartIn (strBytes "Content-Length: ") pre = true)
    (hinv : r.content_length = r.content.length) :
    parseCLField (HttpResponseToString r) = some r.content_length ∧
      bodyPortion (HttpResponseToString r) = some r.content ∧
      parseCLField (HttpResponseToString r) =
        (bodyPortion (HttpResponseToString r)).map List.length := by
  obtain ⟨h1, h2⟩ := serialized_reparse pre hsep hclp r.content_length r.content
  rw [hser]
  refine ⟨h1, h2, ?_⟩
  rw [h1, h2, Option.map_some', hinv]

/-- C7 (counterexample): the response 200 "OK" with the single NUL byte as
content and `content_length` 1 satisfies the invariant, but `%s` truncates the
content at the NUL, so the serialized output carries `Content-Length: 1`
followed by an empty body: the re-parsed field (1) differs from the byte
length (0) of the portion after the blank-line separator. -/
theorem roundTrip_nul_content_fails :
    (⟨200, strBytes "OK", 1, [0]⟩ : HttpResponse).content_length =
        (⟨200, strBytes "OK", 1, [0]⟩ : HttpResponse).content.length ∧
      parseCLField (HttpResponseToString ⟨200, strBytes "OK", 1, [0]⟩) = some 1 ∧
      (bodyPortion (HttpResponseToString ⟨200, strBytes "OK", 1, [0]⟩)).map List.length =
        some 0 ∧
      parseCLField (HttpResponseToString ⟨200, strBytes "OK", 1, [0]⟩) ≠
        (bodyPortion (HttpResponseToString ⟨200, strBytes "OK", 1, [0]⟩)).map List.length := by
  decide

/-- C7 (amended): for every Response whose status line is one of the three the
server constructs (200 "OK", 404 "Not Found", 500 "Internal Server Error"),
whose content contains no NUL byte, and whose `content_length` equals the byte
length of `content`, re-parsing the `Content-Length` field from the serialized
output yields exactly the byte length of the portion of the output following
the blank-line separator (namely the content itself). -/
theorem HttpResponseToString_roundTrip (r : HttpResponse)
    (hstat : (r.status_code, r.status_message) = (200, strBytes "OK") ∨
      (r.status_code, r.status_message) = (404, strBytes "Not Found") ∨
      (r.status_code, r.status_message) = (500, strBytes "Internal Server Error"))
    (hinv : r.content_length = r.content.length)
    (hnul : ∀ b ∈ r.content, b ≠ 0) :
    parseCLField (HttpResponseToString r) = some r.content_length ∧
      bodyPortion (HttpResponseToString r) = some r.content ∧
      parseCLField (HttpResponseToString r) =
        (bodyPortion (HttpResponseToString r)).map List.length := by
  have hser : HttpResponseToString r =
      (strBytes "HTTP/1.1 " ++ (natToBytes r.status_code ++
          (strBytes " " ++ cstr r.status_message))) ++
        (strBytes "\r\nContent-Type: text/html;charset=UTF-8\r\nContent-Length: " ++
          (natToBytes r.content_length ++ (strBytes "\r\n\r\n" ++ cstr r.content))) := by
    rw [HttpResponseToString]
    simp [List.append_assoc]
  rw [cstr_eq_self hnul] at hser
  obtain hpair | hpair | hpair := hstat
  · rw [Prod.mk.injEq] at hpair
    obtain ⟨hc, hm⟩ := hpair
    rw [hc, hm, show cstr (strBytes "OK") = strBytes "OK" from by decide] at hser
    exact roundTrip_case r _ hser (by decide) (by decide) hinv
  · rw [Prod.mk.injEq] at hpair
    obtain ⟨hc, hm⟩ := hpair
    rw [hc, hm, show cstr (strBytes "Not Found") = strBytes "Not Found" from by decide] at hser
    exact roundTrip_case r _ hser (by decide) (by decide) hinv
  · rw [Prod.mk.injEq] at hpair
    obtain ⟨hc, hm⟩ := hpair
    rw [hc, hm, show cstr (strBytes "Internal Server Error") =
      strBytes "Internal Server Error" from by decide] at hser
    exact roundTrip_case r _ hser (by decide) (by decide) hinv

/-- Witness for C7 at the concrete response 200 "OK" with content "hi". -/
theorem HttpResponseToString_roundTrip_witness :
    parseCLField (HttpResponseToString ⟨200, strBytes "OK", 2, [104, 105]⟩) = some 2 ∧
      bodyPortion (HttpResponseToString ⟨200, strBytes "OK", 2, [104, 105]⟩) =
        some [104, 105] ∧
      parseCLField (HttpResponseToString ⟨200, strBytes "OK", 2, [104, 105]⟩) =
        (bodyPortion (HttpResponseToString ⟨200, strBytes "OK", 2, [104, 105]⟩)).map
          List.length :=
  HttpResponseToString_roundTrip ⟨200, strBytes "OK", 2, [104, 105]⟩
    (Or.inl (by decide)) (by decide) (by decide)
